import Mathlib

/-
Verification of the multipart-upload core of the `aws-multipart-upload`
crate, as a shallow embedding in Lean.

Modelling conventions:
* Rust strings (including the `Cow` newtypes `UploadId`, `Bucket`, `Key`)
  are Lean `String`s; `KeyPrefix` is modelled over `List Char` (as `KeyPfx`,
  renamed for technical reasons) so that the character-level normalization
  of `trim_matches('/')` is explicit.
* `i32`/`u64`/`usize` counters are `Int`/`Nat`; no reachable trace in the
  modelled claims approaches a machine-width boundary, so wrap-around is
  not modelled.
* Futures are identified with their eventual resolution (`Except`); the
  scheduler's freedom (which pending futures complete at a given poll, and
  the wire responses) is passed to each polling function as explicit
  arguments, so every state transition of the Rust poll-based state
  machines is an executable Lean function.
* `expect`/panic paths are modelled by `Option`: `none` is a panic, which
  is distinct from returning an `Except.error` value.
-/

/-! ## URI value types (src/uri.rs) -/

/-- Address of an uploaded object: `ObjectUri { bucket, key }`. -/
structure ObjectUri where
  bucket : String
  key : String
deriving DecidableEq

/-- Mirrors `ObjectUri::is_empty`: empty bucket or empty key. -/
def ObjectUri.is_empty (u : ObjectUri) : Bool :=
  u.bucket.isEmpty || u.key.isEmpty

/-! ## Part-level value types (src/client/part.rs, src/client/mod.rs) -/

/-- Mirrors `UploadId` (an opaque string newtype). -/
abbrev UploadId := String

/-- Mirrors `PartBody` (a growable byte buffer); bytes are `Nat`s here. -/
structure PartBody where
  bytes : List Nat
deriving DecidableEq

/-- Mirrors `PartBody::size` (length of the buffer). -/
def PartBody.size (b : PartBody) : Nat := b.bytes.length

/-- Mirrors `PartBody::with_capacity` (a fresh empty buffer). -/
def PartBody.with_capacity : PartBody := ⟨[]⟩

/-- Mirrors `PartNumber(i32)`. -/
structure PartNumber where
  val : Int
deriving DecidableEq

/-- Mirrors `PartNumber::default`, which is 1. -/
def PartNumber.default : PartNumber := ⟨1⟩

/-- Mirrors `PartNumber::increment`: bump the counter by one and return the
previous number.  First component: the updated counter; second: the value
returned by the Rust method. -/
def PartNumber.increment (p : PartNumber) : PartNumber × PartNumber :=
  (⟨p.val + 1⟩, ⟨p.val⟩)

/-- Mirrors `EntityTag` (an opaque string newtype). -/
abbrev EntityTag := String

/-- Mirrors `CompletedPart { id, etag, part_number, part_size }`. -/
structure CompletedPart where
  id : UploadId
  etag : EntityTag
  part_number : PartNumber
  part_size : Nat
deriving DecidableEq

/-- Mirrors `CompletedPart::new`. -/
def CompletedPart.new (id : UploadId) (etag : EntityTag) (part_number : PartNumber)
    (part_size : Nat) : CompletedPart :=
  ⟨id, etag, part_number, part_size⟩

/-- Mirrors `UploadData { id, uri }`. -/
structure UploadData where
  id : UploadId
  uri : ObjectUri
deriving DecidableEq

/-- Mirrors `UploadData::new`. -/
def UploadData.new (id : UploadId) (uri : ObjectUri) : UploadData := ⟨id, uri⟩

/-! ## CompletedParts (src/client/part.rs) -/

/-- Mirrors `CompletedParts(Vec<CompletedPart>)`. -/
abbrev CompletedParts := List CompletedPart

/-- The comparison key used by `sort_by_key(|part| part.part_number)`:
part numbers compared as integers. -/
def CompletedPart.le (a b : CompletedPart) : Bool :=
  decide (a.part_number.val ≤ b.part_number.val)

/-- Mirrors `CompletedParts::push` (append at the end of the vector). -/
def CompletedParts.push (l : CompletedParts) (p : CompletedPart) : CompletedParts :=
  l ++ [p]

/-- Mirrors `CompletedParts::sort_ascending`, i.e.
`sort_by_key(|part| part.part_number)` (a stable sort). -/
def CompletedParts.sort_ascending (l : CompletedParts) : CompletedParts :=
  l.mergeSort CompletedPart.le

/-- Mirrors `CompletedParts::extend`: append the other collection, then
sort ascending by part number. -/
def CompletedParts.extend (l other : CompletedParts) : CompletedParts :=
  CompletedParts.sort_ascending (l ++ other)

/-- Mirrors `CompletedParts::count`. -/
def CompletedParts.count (l : CompletedParts) : Nat := l.length

/-- Mirrors `CompletedParts::max_part_number`: the largest part number in
the collection, or the default (1) when it is empty.  `max_by_key` returns
the last maximal element. -/
def CompletedParts.max_part_number (l : CompletedParts) : PartNumber :=
  match l.argmax (fun p => p.part_number.val) with
  | some p => p.part_number
  | none => PartNumber.default

theorem CompletedPart.le_trans (a b c : CompletedPart) :
    CompletedPart.le a b = true → CompletedPart.le b c = true →
    CompletedPart.le a c = true := by
  simp only [CompletedPart.le, decide_eq_true_eq]
  omega

theorem CompletedPart.le_total (a b : CompletedPart) :
    (CompletedPart.le a b || CompletedPart.le b a) = true := by
  simp only [CompletedPart.le, Bool.or_eq_true, decide_eq_true_eq]
  omega

/-- The result of `sort_ascending` is sorted by part number. -/
theorem CompletedParts.sort_ascending_pairwise (l : CompletedParts) :
    (CompletedParts.sort_ascending l).Pairwise
      (fun a b => a.part_number.val ≤ b.part_number.val) := by
  have h := List.sorted_mergeSort CompletedPart.le_trans CompletedPart.le_total l
  exact h.imp (by
    intro a b hab
    simpa [CompletedPart.le] using hab)

/-- The result of `sort_ascending` is a permutation of the input. -/
theorem CompletedParts.sort_ascending_perm (l : CompletedParts) :
    (CompletedParts.sort_ascending l).Perm l :=
  List.mergeSort_perm l CompletedPart.le

/-- The two basic facts about `extend`: the result is a permutation of the
concatenation, and it is sorted ascending by part number. -/
theorem CompletedParts.extend_perm (l other : CompletedParts) :
    (CompletedParts.extend l other).Perm (l ++ other) :=
  CompletedParts.sort_ascending_perm (l ++ other)

theorem CompletedParts.extend_pairwise (l other : CompletedParts) :
    (CompletedParts.extend l other).Pairwise
      (fun a b => a.part_number.val ≤ b.part_number.val) :=
  CompletedParts.sort_ascending_pairwise (l ++ other)

/-- A sorted collection with pairwise-distinct part numbers is strictly
ascending. -/
theorem CompletedParts.extend_strict (l other : CompletedParts)
    (hnd : ((l ++ other).map (fun p => p.part_number.val)).Nodup) :
    (CompletedParts.extend l other).Pairwise
      (fun a b => a.part_number.val < b.part_number.val) := by
  have hperm := CompletedParts.extend_perm l other
  have hmap := hperm.map (fun p => p.part_number.val)
  have hnd' : ((CompletedParts.extend l other).map
      (fun p => p.part_number.val)).Nodup := (hmap.nodup_iff).mpr hnd
  have hne : (CompletedParts.extend l other).Pairwise
      (fun a b => a.part_number.val ≠ b.part_number.val) :=
    (List.pairwise_map).mp hnd'
  have hle := CompletedParts.extend_pairwise l other
  exact (hle.and hne).imp (by
    intro a b hab
    exact lt_of_le_of_ne hab.1 hab.2)

/-! ## Error model (src/error.rs) -/

/-- Mirrors `ErrorKind`. -/
inductive ErrorKind where
  | Config
  | Encoding
  | Sdk
  | Upload
  | Unknown
deriving DecidableEq

/-- Mirrors `FailedUpload { id, uri, part }`. -/
structure FailedUpload where
  id : UploadId
  uri : ObjectUri
  part : PartNumber
deriving DecidableEq

/-- Mirrors `FailedUpload::new`. -/
def FailedUpload.new (id : UploadId) (uri : ObjectUri) (part : PartNumber) :
    FailedUpload :=
  ⟨id, uri, part⟩

/-- Mirrors the internal `ErrorRepr` enum.  Boxed source errors
(`Box<dyn StdError>`) coming from the SDK are carried as strings; the
source of an `UploadFailed` is the wrapped inner representation. -/
inductive ErrorRepr where
  | Missing (ty field : String)
  | Encoding (msg kind : String)
  | UploadFailed (failed : FailedUpload) (source : ErrorRepr)
  | Sdk (source : String)
  | Other (kind : ErrorKind) (msg : String)
  | DynStd (source : String)
deriving DecidableEq

/-- Mirrors `pub struct Error(ErrorRepr)`.  Named `UploadError` as in the
aliases used by the write-layer modules. -/
structure UploadError where
  repr : ErrorRepr
deriving DecidableEq

/-- Mirrors `Error::failed_upload`: the context is available only on the
`UploadFailed` variant. -/
def UploadError.failed_upload (e : UploadError) : Option FailedUpload :=
  match e.repr with
  | .UploadFailed failed _ => some failed
  | _ => none

/-- Mirrors `Error::kind`. -/
def UploadError.kind (e : UploadError) : ErrorKind :=
  match e.repr with
  | .Sdk _ => .Sdk
  | .Missing _ _ => .Config
  | .Encoding _ _ => .Encoding
  | .UploadFailed _ _ => .Upload
  | .DynStd _ => .Unknown
  | .Other k _ => k

/-- Mirrors `UploadContext::upload_ctx` on `Result<T, ErrorRepr>`: attach
the failed-upload data to the error, if any. -/
def upload_ctx {T : Type} (r : Except ErrorRepr T) (id : UploadId)
    (uri : ObjectUri) (part : PartNumber) : Except UploadError T :=
  match r with
  | .ok t => .ok t
  | .error e => .error ⟨.UploadFailed (FailedUpload.new id uri part) e⟩

/-! ## Request objects and local validation (src/client/request/) -/

/-- Mirrors `CreateRequest { uri }`. -/
structure CreateRequest where
  uri : ObjectUri
deriving DecidableEq

/-- Mirrors `CreateRequest::new`. -/
def CreateRequest.new (uri : ObjectUri) : CreateRequest := ⟨uri⟩

/-- Mirrors `CreateRequest::validate`. -/
def CreateRequest.validate (r : CreateRequest) : Except UploadError Unit :=
  if r.uri.is_empty then
    .error ⟨.Missing "CreateRequest" "empty object uri"⟩
  else
    .ok ()

/-- Mirrors `UploadPartRequest { id, uri, body, part_number }`. -/
structure UploadPartRequest where
  id : UploadId
  uri : ObjectUri
  body : PartBody
  part_number : PartNumber
deriving DecidableEq

/-- Mirrors `UploadPartRequest::new` (fields taken from the `UploadData`). -/
def UploadPartRequest.new (data : UploadData) (body : PartBody)
    (part_number : PartNumber) : UploadPartRequest :=
  ⟨data.id, data.uri, body, part_number⟩

/-- Mirrors `UploadPartRequest::validate`. -/
def UploadPartRequest.validate (r : UploadPartRequest) : Except UploadError Unit :=
  if r.id.isEmpty || r.uri.is_empty then
    .error ⟨.Missing "UploadPartRequest" "empty upload id and/or uri"⟩
  else
    .ok ()

/-- Mirrors `CompleteRequest { id, uri, completed_parts }`. -/
structure CompleteRequest where
  id : UploadId
  uri : ObjectUri
  completed_parts : CompletedParts
deriving DecidableEq

/-- Mirrors `CompleteRequest::new` (fields taken from the `UploadData`). -/
def CompleteRequest.new (data : UploadData) (completed_parts : CompletedParts) :
    CompleteRequest :=
  ⟨data.id, data.uri, completed_parts⟩

/-- Mirrors `CompleteRequest::validate`. -/
def CompleteRequest.validate (r : CompleteRequest) : Except UploadError Unit :=
  if r.id.isEmpty || r.uri.is_empty then
    .error ⟨.Missing "CompleteUploadRequest" "empty upload id and/or uri"⟩
  else
    .ok ()

/-- Mirrors `CompletedUpload { uri, etag }`. -/
structure CompletedUpload where
  uri : ObjectUri
  etag : EntityTag
deriving DecidableEq

/-- Mirrors `CompletedUpload::new`. -/
def CompletedUpload.new (uri : ObjectUri) (etag : EntityTag) : CompletedUpload :=
  ⟨uri, etag⟩

/-! ## Poll protocol -/

/-- The `Poll` type of the poll-based state machines. -/
inductive Poll (α : Type) where
  | Ready (a : α)
  | Pending
deriving DecidableEq

/-! ## PartBuffer — the pending pool (src/write/part_buffer.rs) -/

/-- Mirrors the items of `FuturesUnordered<SendUploadPart>`: a part-upload
request future, identified with its eventual resolution.  When it completes
is decided by the scheduler, which is an explicit argument of the polling
functions below. -/
abbrev SendUploadPart := Except UploadError CompletedPart

/-- Mirrors `PartBuffer { pending, completed, capacity }`. -/
structure PartBuffer where
  pending : List SendUploadPart
  completed : CompletedParts
  capacity : Option Nat

/-- Mirrors `PartBuffer::new`: `capacity.and_then(NonZeroUsize::new)`, so a
configured capacity of zero becomes no capacity limit. -/
def PartBuffer.new (capacity : Option Nat) : PartBuffer :=
  ⟨[], [], capacity.bind (fun n => if n = 0 then none else some n)⟩

/-- The drain loop shared by `poll_ready` and `poll_flush`: consume the
futures the scheduler yields as completed, in yield order, pushing each
success onto `completed`; stop at the first error.  Returns the grown
completed collection, the error if one stopped the loop, and the yielded
futures not consumed because the loop stopped early. -/
def PartBuffer.pollDrain (acc : CompletedParts) :
    List SendUploadPart → CompletedParts × Option UploadError × List SendUploadPart
  | [] => (acc, none, [])
  | .ok v :: rest => PartBuffer.pollDrain (CompletedParts.push acc v) rest
  | .error e :: rest => (acc, some e, rest)

/-- Mirrors `PartBuffer::poll_ready`.  The scheduler splits the pending set
into `done` (futures that complete at this poll, in the order
`FuturesUnordered` yields them) and `stay` (still pending); the caller
supplies a proof elsewhere that `pending` is a permutation of
`done ++ stay`.  After draining, ready iff there is no capacity limit or
the pending count is below it. -/
def PartBuffer.poll_ready (b : PartBuffer) (done stay : List SendUploadPart) :
    PartBuffer × Poll (Except UploadError Unit) :=
  match PartBuffer.pollDrain b.completed done with
  | (acc, some e, leftover) =>
      ({ b with pending := leftover ++ stay, completed := acc },
        .Ready (.error e))
  | (acc, none, _) =>
      let b' : PartBuffer := { b with pending := stay, completed := acc }
      match b.capacity with
      | none => (b', .Ready (.ok ()))
      | some n => if stay.length < n then (b', .Ready (.ok ())) else (b', .Pending)

/-- Mirrors `PartBuffer::start_send`: push the new pending future. -/
def PartBuffer.start_send (b : PartBuffer) (fut : SendUploadPart) : PartBuffer :=
  { b with pending := b.pending ++ [fut] }

/-- Mirrors `PartBuffer::poll_flush`: drive every pending future to
completion (the scheduler resolves them in the order `seq`), stopping at
the first error. -/
def PartBuffer.poll_flush (b : PartBuffer) (seq : List SendUploadPart) :
    PartBuffer × Except UploadError Unit :=
  match PartBuffer.pollDrain b.completed seq with
  | (acc, some e, leftover) =>
      ({ b with pending := leftover, completed := acc }, .error e)
  | (acc, none, _) =>
      ({ b with pending := [], completed := acc }, .ok ())

/-- Mirrors `PartBuffer::poll_complete`: flush, then take the accumulated
completed collection, resetting it. -/
def PartBuffer.poll_complete (b : PartBuffer) (seq : List SendUploadPart) :
    PartBuffer × Except UploadError CompletedParts :=
  match PartBuffer.poll_flush b seq with
  | (b', .error e) => (b', .error e)
  | (b', .ok ()) => ({ b' with completed := [] }, .ok b'.completed)

/-- The states a `PartBuffer` can reach when driven per the contract: it is
constructed by `new`, polled with scheduler-chosen outcomes, and
`start_send` is only called after `poll_ready` reported ready. -/
inductive PartBuffer.Reach : PartBuffer → Prop where
  | new (capacity : Option Nat) : PartBuffer.Reach (PartBuffer.new capacity)
  | poll (b : PartBuffer) (done stay : List SendUploadPart) (b' : PartBuffer)
      (r : Poll (Except UploadError Unit)) :
      PartBuffer.Reach b → b.pending.Perm (done ++ stay) →
      b.poll_ready done stay = (b', r) → PartBuffer.Reach b'
  | send (b : PartBuffer) (done stay : List SendUploadPart) (b' : PartBuffer)
      (fut : SendUploadPart) :
      PartBuffer.Reach b → b.pending.Perm (done ++ stay) →
      b.poll_ready done stay = (b', .Ready (.ok ())) →
      PartBuffer.Reach (b'.start_send fut)
  | flush (b : PartBuffer) (seq : List SendUploadPart) (b' : PartBuffer)
      (r : Except UploadError Unit) :
      PartBuffer.Reach b → b.pending.Perm seq →
      b.poll_flush seq = (b', r) → PartBuffer.Reach b'
  | complete (b : PartBuffer) (seq : List SendUploadPart) (b' : PartBuffer)
      (out : Except UploadError CompletedParts) :
      PartBuffer.Reach b → b.pending.Perm seq →
      b.poll_complete seq = (b', out) → PartBuffer.Reach b'

theorem PartBuffer.pollDrain_leftover_length (acc : CompletedParts)
    (done : List SendUploadPart) :
    (PartBuffer.pollDrain acc done).2.2.length ≤ done.length := by
  induction done generalizing acc with
  | nil => simp [PartBuffer.pollDrain]
  | cons f rest ih =>
    cases f with
    | ok v =>
      simpa [PartBuffer.pollDrain] using
        Nat.le_trans (ih (CompletedParts.push acc v)) (Nat.le_succ _)
    | error e => simp [PartBuffer.pollDrain]

/-- Capacity is never modified by any operation. -/
theorem PartBuffer.poll_ready_capacity (b : PartBuffer)
    (done stay : List SendUploadPart) :
    (b.poll_ready done stay).1.capacity = b.capacity := by
  unfold PartBuffer.poll_ready
  rcases h : PartBuffer.pollDrain b.completed done with ⟨acc, err, leftover⟩
  cases err with
  | none =>
    cases hc : b.capacity with
    | none => simp [h, hc]
    | some n =>
      by_cases hl : stay.length < n <;> simp [h, hc, hl]
  | some e => simp [h]

theorem PartBuffer.poll_flush_capacity (b : PartBuffer)
    (seq : List SendUploadPart) :
    (b.poll_flush seq).1.capacity = b.capacity := by
  unfold PartBuffer.poll_flush
  rcases h : PartBuffer.pollDrain b.completed seq with ⟨acc, err, leftover⟩
  cases err <;> simp [h]

/-- Full characterization of a `poll_ready` call when every future the
scheduler yields completes successfully: drained results are appended to
`completed`, `pending` becomes `stay`, and the call reports ready exactly
when there is no capacity limit or the remaining pending count is below
it. -/
theorem PartBuffer.pollDrain_all_ok (acc : CompletedParts)
    (done : List SendUploadPart) (h : ∀ f ∈ done, ∃ v, f = Except.ok v) :
    PartBuffer.pollDrain acc done =
      (acc ++ done.filterMap Except.toOption, none, []) := by
  induction done generalizing acc with
  | nil => simp [PartBuffer.pollDrain]
  | cons f rest ih =>
    rcases h f (by simp) with ⟨v, rfl⟩
    have hrest : ∀ g ∈ rest, ∃ v, g = Except.ok v := by
      intro g hg
      exact h g (by simp [hg])
    simp [PartBuffer.pollDrain, CompletedParts.push, ih _ hrest, Except.toOption]

theorem PartBuffer.poll_ready_ok_spec (b : PartBuffer)
    (done stay : List SendUploadPart) (b' : PartBuffer)
    (r : Poll (Except UploadError Unit))
    (hok : ∀ f ∈ done, ∃ v, f = Except.ok v)
    (h : b.poll_ready done stay = (b', r)) :
    b'.completed = b.completed ++ done.filterMap Except.toOption ∧
    b'.pending = stay ∧ b'.capacity = b.capacity ∧
    (r = .Ready (.ok ()) ↔
      (b.capacity = none ∨ ∃ n, b.capacity = some n ∧ stay.length < n)) := by
  unfold PartBuffer.poll_ready at h
  rw [PartBuffer.pollDrain_all_ok b.completed done hok] at h
  cases hc : b.capacity with
  | none =>
    rw [hc] at h
    obtain ⟨rfl, rfl⟩ := Prod.mk.injEq .. ▸ h
    simp_all
  | some n =>
    rw [hc] at h
    by_cases hl : stay.length < n
    · simp only [hl, if_pos] at h
      obtain ⟨rfl, rfl⟩ := Prod.mk.injEq .. ▸ h
      simp_all
    · simp only [hl, if_neg, not_false_iff] at h
      obtain ⟨rfl, rfl⟩ := Prod.mk.injEq .. ▸ h
      simp_all

/-- Whatever the scheduler does, a `poll_ready` call never grows `pending`,
never changes `capacity`, and when it reports ready under a capacity limit
the remaining pending count is strictly below the limit. -/
theorem PartBuffer.poll_ready_spec (b : PartBuffer)
    (done stay : List SendUploadPart) (b' : PartBuffer)
    (r : Poll (Except UploadError Unit))
    (h : b.poll_ready done stay = (b', r)) :
    b'.capacity = b.capacity ∧
    b'.pending.length ≤ done.length + stay.length ∧
    (r = .Ready (.ok ()) → ∀ n, b.capacity = some n → b'.pending.length < n) := by
  unfold PartBuffer.poll_ready at h
  rcases hd : PartBuffer.pollDrain b.completed done with ⟨acc, err, leftover⟩
  have hlen : leftover.length ≤ done.length := by
    have := PartBuffer.pollDrain_leftover_length b.completed done
    rw [hd] at this
    exact this
  rw [hd] at h
  cases err with
  | some e =>
    obtain ⟨rfl, rfl⟩ := Prod.mk.injEq .. ▸ h
    refine ⟨rfl, ?_, ?_⟩
    · simpa using Nat.add_le_add_right hlen stay.length
    · intro hr
      exact absurd hr (by simp)
  | none =>
    cases hc : b.capacity with
    | none =>
      rw [hc] at h
      obtain ⟨rfl, rfl⟩ := Prod.mk.injEq .. ▸ h
      exact ⟨rfl, by simp [Nat.le_add_left], by intro _ n hn; cases hn⟩
    | some n =>
      rw [hc] at h
      by_cases hl : stay.length < n
      · simp only [hl, if_pos] at h
        obtain ⟨rfl, rfl⟩ := Prod.mk.injEq .. ▸ h
        refine ⟨rfl, by simp [Nat.le_add_left], ?_⟩
        intro _ m hm
        cases hm
        simpa using hl
      · simp only [hl, if_neg, not_false_iff] at h
        obtain ⟨rfl, rfl⟩ := Prod.mk.injEq .. ▸ h
        refine ⟨rfl, by simp [Nat.le_add_left], ?_⟩
        intro hr
        exact absurd hr (by simp)

theorem PartBuffer.poll_flush_spec (b : PartBuffer)
    (seq : List SendUploadPart) (b' : PartBuffer)
    (r : Except UploadError Unit) (h : b.poll_flush seq = (b', r)) :
    b'.capacity = b.capacity ∧ b'.pending.length ≤ seq.length := by
  unfold PartBuffer.poll_flush at h
  rcases hd : PartBuffer.pollDrain b.completed seq with ⟨acc, err, leftover⟩
  have hlen : leftover.length ≤ seq.length := by
    have := PartBuffer.pollDrain_leftover_length b.completed seq
    rw [hd] at this
    exact this
  rw [hd] at h
  cases err with
  | some e =>
    obtain ⟨rfl, rfl⟩ := Prod.mk.injEq .. ▸ h
    exact ⟨rfl, hlen⟩
  | none =>
    obtain ⟨rfl, rfl⟩ := Prod.mk.injEq .. ▸ h
    exact ⟨rfl, by simp⟩

theorem PartBuffer.poll_complete_spec (b : PartBuffer)
    (seq : List SendUploadPart) (b' : PartBuffer)
    (out : Except UploadError CompletedParts)
    (h : b.poll_complete seq = (b', out)) :
    b'.capacity = b.capacity ∧ b'.pending.length ≤ seq.length := by
  unfold PartBuffer.poll_complete at h
  rcases hf : b.poll_flush seq with ⟨b'', r⟩
  have hspec := PartBuffer.poll_flush_spec b seq b'' r hf
  rw [hf] at h
  cases r with
  | error e =>
    obtain ⟨rfl, rfl⟩ := Prod.mk.injEq .. ▸ h
    exact hspec
  | ok u =>
    cases u
    obtain ⟨rfl, rfl⟩ := Prod.mk.injEq .. ▸ h
    exact hspec

/-- In every reachable state the pending pool respects its capacity
limit. -/
theorem PartBuffer.reach_bounded (b : PartBuffer) (hb : PartBuffer.Reach b) :
    ∀ n, b.capacity = some n → b.pending.length ≤ n := by
  induction hb with
  | new capacity =>
    intro n _
    simp [PartBuffer.new]
  | poll b done stay b' r _ hperm hpoll ih =>
    intro n hn
    obtain ⟨hcap, hle, _⟩ := PartBuffer.poll_ready_spec b done stay b' r hpoll
    have hlen : b.pending.length = done.length + stay.length := by
      simpa using hperm.length_eq
    have := ih n (hcap ▸ hn)
    omega
  | send b done stay b' fut _ hperm hpoll ih =>
    intro n hn
    obtain ⟨hcap, _, hready⟩ :=
      PartBuffer.poll_ready_spec b done stay b' (.Ready (.ok ())) hpoll
    have hn' : b.capacity = some n := by
      simpa [PartBuffer.start_send, hcap] using hn
    have hlt : b'.pending.length < n := hready rfl n hn'
    simpa [PartBuffer.start_send] using hlt
  | flush b seq b' r _ hperm hflush ih =>
    intro n hn
    obtain ⟨hcap, hle⟩ := PartBuffer.poll_flush_spec b seq b' r hflush
    have hlen : b.pending.length = seq.length := hperm.length_eq
    have := ih n (hcap ▸ hn)
    omega
  | complete b seq b' out _ hperm hcomp ih =>
    intro n hn
    obtain ⟨hcap, hle⟩ := PartBuffer.poll_complete_spec b seq b' out hcomp
    have hlen : b.pending.length = seq.length := hperm.length_eq
    have := ih n (hcap ▸ hn)
    omega

/-! ## UploadBuilder (src/lib.rs) — the configuration relevant to the pool -/

/-- Mirrors the `UploadBuilder` configuration fields that reach the
pending pool and the encoded layer (the client, encoder and URI iterator
are modelled at their use sites). -/
structure UploadBuilder where
  max_bytes : Nat
  max_part_bytes : Nat
  max_tasks : Option Nat
deriving DecidableEq

/-- Mirrors `UploadBuilder::new`: default object size 5 GiB, default part
size 10 MiB, default pool capacity `Some(10)`. -/
def UploadBuilder.new : UploadBuilder :=
  ⟨5 * 1024 ^ 3, 10 * 1024 ^ 2, some 10⟩

/-- Mirrors `UploadBuilder::max_active_tasks`: stores `Some(limit)`, even
for a limit of zero. -/
def UploadBuilder.max_active_tasks (b : UploadBuilder) (limit : Nat) : UploadBuilder :=
  { b with max_tasks := some limit }

/-- The `PartBuffer::new(self.max_tasks)` call inside `UploadBuilder::build`. -/
def UploadBuilder.build_buffer (b : UploadBuilder) : PartBuffer :=
  PartBuffer.new b.max_tasks

/-! ## UploadImpl — one upload's lifecycle (src/write/upload.rs) -/

/-- Mirrors `UploadSent { id, uri, part, bytes }`. -/
structure UploadSent where
  id : UploadId
  uri : ObjectUri
  part : PartNumber
  bytes : Nat
deriving DecidableEq

/-- Mirrors `UploadSent::new`. -/
def UploadSent.new (data : UploadData) (part : PartNumber) (bytes : Nat) : UploadSent :=
  ⟨data.id, data.uri, part, bytes⟩

/-- Mirrors `UploadImpl { buf, fut, data, client, completed, part }`.  The
part buffer `buf` and the client are modelled separately (`PartBuffer`,
and the request futures as their resolutions); a pending complete-upload
future is represented by the request it carries. -/
structure UploadImpl where
  fut : Option CompleteRequest
  data : Option UploadData
  completed : CompletedParts
  part : PartNumber
deriving DecidableEq

/-- Mirrors `UploadImpl::new` (no upload data, empty completed parts,
default part number 1). -/
def UploadImpl.new : UploadImpl :=
  ⟨none, none, [], PartNumber.default⟩

/-- Mirrors `UploadImpl::set_upload_data`. -/
def UploadImpl.set_upload_data (s : UploadImpl) (d : UploadData) : UploadImpl :=
  { s with data := some d }

/-- Mirrors `UploadImpl::is_terminated` (no upload data installed). -/
def UploadImpl.is_terminated (s : UploadImpl) : Bool :=
  s.data.isNone

/-- Mirrors `UploadImpl::start_send`.  Returns `none` on the
`expect("polled Upload after completion")` panic taken when no upload data
is installed; otherwise increments the part counter and builds the
`UploadPartRequest` whose future is pushed into the part buffer.  The
built request is returned so dispatch can be observed. -/
def UploadImpl.start_send (s : UploadImpl) (part : PartBody) :
    Option (UploadImpl × UploadSent × UploadPartRequest) :=
  match s.data with
  | none => none
  | some data =>
    let bytes := part.size
    let (ctr, pt_num) := s.part.increment
    let req := UploadPartRequest.new data part pt_num
    some ({ s with part := ctr }, UploadSent.new data pt_num bytes, req)

/-- Mirrors `UploadImpl::poll_flush`: drain the part buffer (its
`poll_complete` outcome is the argument) into `completed`. -/
def UploadImpl.poll_flush (s : UploadImpl)
    (bufParts : Except UploadError CompletedParts) :
    UploadImpl × Except UploadError Unit :=
  match bufParts with
  | .error e => (s, .error e)
  | .ok parts =>
      ({ s with completed := CompletedParts.extend s.completed parts }, .ok ())

/-- Mirrors `UploadImpl::poll_complete`.  `bufParts` is the outcome of the
part buffer's `poll_complete`; `resp` is the resolution of the
complete-upload request future.  Returns `none` on the
`expect("polled Upload after completion")` panic (no pending complete
future and no upload data); otherwise the new state, the outcome, and the
`CompleteRequest` whose future was polled. -/
def UploadImpl.poll_complete (s : UploadImpl)
    (bufParts : Except UploadError CompletedParts)
    (resp : Except UploadError CompletedUpload) :
    Option (UploadImpl × Except UploadError CompletedUpload × Option CompleteRequest) :=
  match s.fut with
  | some req =>
      -- a complete request was already in flight; polling it to resolution
      -- clears the upload data and resets the part counter
      some ({ s with fut := none, data := none, part := PartNumber.default },
        resp, some req)
  | none =>
    match s.data with
    | none => none
    | some data =>
      match bufParts with
      | .error e => some (s, .error e, none)
      | .ok parts =>
        let completed := CompletedParts.extend s.completed parts
        let req := CompleteRequest.new data completed
        -- `mem::take` empties `completed` into the request; the future is
        -- then created and polled to resolution
        let s' : UploadImpl :=
          ⟨none, none, [], PartNumber.default⟩
        some (s', resp, some req)

/-- Iterated `start_send`: dispatch each body in order, collecting the
built part-upload requests.  `none` if any send panics. -/
def UploadImpl.sendMany (s : UploadImpl) :
    List PartBody → Option (UploadImpl × List UploadPartRequest)
  | [] => some (s, [])
  | b :: bs =>
    match s.start_send b with
    | none => none
    | some (s', _, req) =>
      match UploadImpl.sendMany s' bs with
      | none => none
      | some (s'', reqs) => some (s'', req :: reqs)

theorem range_map_shift (c : Int) (n : Nat) :
    (List.range (n + 1)).map (fun (i : Nat) => c + (i : Int)) =
      c :: (List.range n).map (fun (i : Nat) => (c + 1) + (i : Int)) := by
  rw [List.range_succ_eq_map]
  rw [List.map_cons, List.map_map]
  refine congrArg₂ _ (by push_cast; ring) ?_
  apply List.map_congr_left
  intro i _
  show c + ((Nat.succ i : Nat) : Int) = (c + 1) + (i : Int)
  push_cast
  ring

/-- Dispatch specification: with upload data installed, sending `k` bodies
assigns the part numbers `ctr, ctr+1, …, ctr+k-1` in order (where `ctr` is
the current counter), advances the counter by `k`, and touches nothing
else. -/
theorem UploadImpl.sendMany_spec (bodies : List PartBody) (s : UploadImpl)
    (d : UploadData) (hd : s.data = some d) :
    ∃ s' reqs, UploadImpl.sendMany s bodies = some (s', reqs) ∧
      reqs.map (fun q => q.part_number.val) =
        (List.range bodies.length).map (fun (i : Nat) => s.part.val + (i : Int)) ∧
      s'.part.val = s.part.val + bodies.length ∧
      s'.data = s.data ∧ s'.fut = s.fut ∧ s'.completed = s.completed := by
  induction bodies generalizing s with
  | nil =>
    exact ⟨s, [], rfl, by simp, by simp, rfl, rfl, rfl⟩
  | cons b bs ih =>
    have hsend : s.start_send b =
        some ({ s with part := ⟨s.part.val + 1⟩ },
          UploadSent.new d ⟨s.part.val⟩ b.size,
          UploadPartRequest.new d b ⟨s.part.val⟩) := by
      simp [UploadImpl.start_send, hd, PartNumber.increment]
    obtain ⟨s', reqs, hrec, hnums, hctr, hdata, hfut, hcompleted⟩ :=
      ih { s with part := ⟨s.part.val + 1⟩ } (by simpa using hd)
    refine ⟨s', UploadPartRequest.new d b ⟨s.part.val⟩ :: reqs, ?_, ?_, ?_, ?_, ?_, ?_⟩
    · simp [UploadImpl.sendMany, hsend, hrec]
    · simp only [List.map_cons, List.length_cons, range_map_shift]
      refine congrArg₂ _ rfl ?_
      simpa using hnums
    · simp only [List.length_cons] at *
      omega
    · simpa using hdata
    · simpa using hfut
    · simpa using hcompleted

/-! ## Upload — rollover across the URI iterator (src/write/upload.rs) -/

/-- Mirrors `Upload { inner, fut, next_uri, iter }`.  The URI iterator is
modelled as the list of URIs it will still produce; a pending create
future is represented by the request it carries. -/
structure Upload where
  inner : UploadImpl
  fut : Option CreateRequest
  next_uri : Option ObjectUri
  iter : List ObjectUri
deriving DecidableEq

/-- Mirrors `Upload::new`: `iter.next_upload(client)` consumes the first
URI, if any, into an initial create future. -/
def Upload.new (iter : List ObjectUri) : Upload :=
  match iter with
  | [] => ⟨UploadImpl.new, none, none, []⟩
  | uri :: rest => ⟨UploadImpl.new, some (CreateRequest.new uri), none, rest⟩

/-- Mirrors `Upload::is_terminated`: inner terminated, no pending create
future, and no next URI. -/
def Upload.is_terminated (u : Upload) : Bool :=
  u.inner.is_terminated && u.fut.isNone && u.next_uri.isNone

/-- Mirrors `Upload::poll_new_upload`.  If a next URI is staged, a create
request future is built from it; a pending create future is then polled to
resolution (`resp`), installing the upload data on success. -/
def Upload.poll_new_upload (u : Upload) (resp : Except UploadError UploadData) :
    Upload × Except UploadError Unit :=
  let u1 :=
    match u.next_uri with
    | some uri => { u with fut := some (CreateRequest.new uri), next_uri := none }
    | none => u
  match u1.fut with
  | none => (u1, .ok ())
  | some _ =>
    match resp with
    | .ok d => ({ u1 with fut := none, inner := u1.inner.set_upload_data d }, .ok ())
    | .error e => ({ u1 with fut := none }, .error e)

/-- Mirrors `Upload::poll_ready`: run `poll_new_upload`, then forward to
the inner writer's `poll_ready`, which is the part buffer's readiness
(modelled separately and passed as `bufReady`). -/
def Upload.poll_ready (u : Upload) (resp : Except UploadError UploadData)
    (bufReady : Bool) : Upload × Poll (Except UploadError Unit) :=
  match u.poll_new_upload resp with
  | (u', .error e) => (u', .Ready (.error e))
  | (u', .ok ()) => if bufReady then (u', .Ready (.ok ())) else (u', .Pending)

/-- Mirrors `Upload::start_send` (delegates to the inner writer). -/
def Upload.start_send (u : Upload) (part : PartBody) :
    Option (Upload × UploadSent × UploadPartRequest) :=
  match u.inner.start_send part with
  | none => none
  | some (i, sent, req) => some ({ u with inner := i }, sent, req)

/-- Mirrors `Upload::poll_complete`: the inner completion, then
`next_uri := iter.next()`. -/
def Upload.poll_complete (u : Upload)
    (bufParts : Except UploadError CompletedParts)
    (resp : Except UploadError CompletedUpload) :
    Option (Upload × Except UploadError CompletedUpload × Option CompleteRequest) :=
  match u.inner.poll_complete bufParts resp with
  | none => none
  | some (i, out, req) =>
      some ({ u with inner := i, next_uri := u.iter.head?, iter := u.iter.tail },
        out, req)

/-- After a `poll_new_upload` that returns ok, the create future and the
staged next URI are both gone. -/
theorem Upload.poll_new_upload_ok (u : Upload)
    (resp : Except UploadError UploadData) (u' : Upload)
    (h : u.poll_new_upload resp = (u', .ok ())) :
    u'.fut = none ∧ u'.next_uri = none := by
  unfold Upload.poll_new_upload at h
  cases hn : u.next_uri with
  | some uri =>
    rw [hn] at h
    simp only at h
    cases resp with
    | ok d =>
      obtain ⟨rfl, -⟩ := Prod.mk.injEq .. ▸ h
      exact ⟨rfl, rfl⟩
    | error e =>
      obtain ⟨-, h2⟩ := Prod.mk.injEq .. ▸ h
      cases h2
  | none =>
    rw [hn] at h
    simp only at h
    cases hf : u.fut with
    | none =>
      rw [hf] at h
      obtain ⟨rfl, -⟩ := Prod.mk.injEq .. ▸ h
      exact ⟨hf, hn⟩
    | some req =>
      rw [hf] at h
      cases resp with
      | ok d =>
        obtain ⟨rfl, -⟩ := Prod.mk.injEq .. ▸ h
        exact ⟨rfl, hn⟩
      | error e =>
        obtain ⟨-, h2⟩ := Prod.mk.injEq .. ▸ h
        cases h2

/-! ## EncodedUpload — the encoded layer (src/write/encoded.rs) -/

/-- Mirrors `Status`.  The wall-clock field `elapsed: Duration` is real
time and is not modelled; every other field is. -/
structure Status where
  id : Option UploadId
  part : Option PartNumber
  items : Nat
  parts : Nat
  bytes : Nat
  should_complete : Bool
  part_bytes : Nat
  should_upload : Bool
deriving DecidableEq

/-- Mirrors the private telemetry struct `UploadState`. -/
structure UploadState where
  id : Option UploadId
  part : Option PartNumber
  part_bytes : Nat
  total_bytes : Nat
  total_items : Nat
  total_parts : Nat
deriving DecidableEq

/-- Mirrors `UploadState::default` (all zero). -/
def UploadState.default : UploadState := ⟨none, none, 0, 0, 0, 0⟩

/-- Mirrors `UploadState::to_status` (minus `elapsed`). -/
def UploadState.to_status (s : UploadState) (max_bytes max_part_bytes : Nat) : Status :=
  { id := s.id
    part := s.part
    items := s.total_items
    bytes := s.total_bytes
    should_complete := decide (s.total_bytes ≥ max_bytes)
    parts := s.total_parts
    part_bytes := s.part_bytes
    should_upload := decide (s.part_bytes ≥ max_part_bytes) }

/-- Mirrors `UploadState::update_encode`. -/
def UploadState.update_encode (s : UploadState) (bytes : Nat) : UploadState :=
  { s with part_bytes := s.part_bytes + bytes, total_items := s.total_items + 1 }

/-- Mirrors `UploadState::update_sent`. -/
def UploadState.update_sent (s : UploadState) (sent : UploadSent) : UploadState :=
  { s with
    id := some sent.id
    part := some sent.part
    part_bytes := 0
    total_bytes := s.total_bytes + sent.bytes
    total_parts := s.total_parts + 1 }

/-- Mirrors `EncodedUpload` instantiated at the default encoder, which is
`PartBody` itself (its `PartEncoder` impl appends an item's bytes and
reports the byte count written; `flush` is a no-op; `into_body` is the
identity; `build`/`reset` give a fresh empty body).  The uploader is the
`UploadImpl` model; `start: Instant` is wall-clock and not modelled. -/
structure EncodedUpload where
  uploader : UploadImpl
  encoder : PartBody
  max_bytes : Nat
  max_part_bytes : Nat
  state : UploadState
  empty : Bool
deriving DecidableEq

/-- Mirrors `EncodedUpload::new`: fresh encoder, default state, empty. -/
def EncodedUpload.new (uploader : UploadImpl) (bytes part_bytes : Nat) :
    EncodedUpload :=
  ⟨uploader, PartBody.with_capacity, bytes, part_bytes, UploadState.default, true⟩

/-- Mirrors `EncodedUpload::poll_send_body` in the case where the uploader
reported ready (the part buffer's readiness is modelled separately): flush
the encoder (a no-op for the `PartBody` encoder), swap in a fresh one,
dispatch its body via the uploader's `start_send`, record the
`UploadSent` in the telemetry, and mark the layer empty.  `none` is the
propagated panic of `start_send` without upload data. -/
def EncodedUpload.poll_send_body (e : EncodedUpload) : Option EncodedUpload :=
  match e.uploader.start_send e.encoder with
  | none => none
  | some (u, sent, _) =>
      some { e with
        uploader := u
        encoder := PartBody.with_capacity
        state := e.state.update_sent sent
        empty := true }

/-- Mirrors `EncodedUpload::start_send` with the `PartBody` encoder:
append the item's bytes, update the telemetry, and return the status
snapshot. -/
def EncodedUpload.start_send (e : EncodedUpload) (item : List Nat) :
    EncodedUpload × Status :=
  let bytes := item.length
  let e' := { e with
    encoder := ⟨e.encoder.bytes ++ item⟩
    state := e.state.update_encode bytes
    empty := false }
  (e', e'.state.to_status e.max_bytes e.max_part_bytes)

/-- Mirrors `EncodedUpload::poll_ready`: flush a part once it has reached
the target size. -/
def EncodedUpload.poll_ready (e : EncodedUpload) : Option EncodedUpload :=
  if e.state.part_bytes ≥ e.max_part_bytes then e.poll_send_body else some e

/-- Mirrors `EncodedUpload::poll_complete`: send any part in progress,
complete the upload through the uploader, and on success rebuild a fresh
encoder for the next cycle.  The telemetry `state` is left untouched in
both cases, exactly as in the source. -/
def EncodedUpload.poll_complete (e : EncodedUpload)
    (bufParts : Except UploadError CompletedParts)
    (resp : Except UploadError CompletedUpload) :
    Option (EncodedUpload × Except UploadError CompletedUpload × Option CompleteRequest) :=
  match (if e.empty then some e else e.poll_send_body) with
  | none => none
  | some e1 =>
    match e1.uploader.poll_complete bufParts resp with
    | none => none
    | some (u, .error er, req) => some ({ e1 with uploader := u }, .error er, req)
    | some (u, .ok v, req) =>
        some ({ e1 with uploader := u, encoder := PartBody.with_capacity },
          .ok v, req)

/-- A two-upload trace through the encoded layer: upload 1 encodes one
5-byte item and completes; a second upload is installed (rollover) and one
3-byte item is encoded.  Returns the status snapshot of that first item of
upload 2, together with the uploader's part counter and completed
collection at that point. -/
def c7trace : Option (Status × PartNumber × CompletedParts) :=
  let d1 := UploadData.new "upload-1" ⟨"bucket", "key-1"⟩
  let d2 := UploadData.new "upload-2" ⟨"bucket", "key-2"⟩
  let e0 := EncodedUpload.new (UploadImpl.new.set_upload_data d1) 1000000 1000000
  let r1 := e0.start_send [10, 11, 12, 13, 14]
  let cp := CompletedPart.new "upload-1" "etag-1" ⟨1⟩ 5
  let cu := CompletedUpload.new ⟨"bucket", "key-1"⟩ "etag-obj"
  match r1.1.poll_complete (.ok [cp]) (.ok cu) with
  | none => none
  | some (e2, _, _) =>
    let e3 := { e2 with uploader := e2.uploader.set_upload_data d2 }
    let r2 := e3.start_send [20, 21, 22]
    some (r2.2, r2.1.uploader.part, r2.1.uploader.completed)

/-! ## KeyPfx — key-prefix normalization (src/uri.rs, `KeyPrefix::new`)

The Rust type is a string newtype; it is modelled here over `List Char`
(named `KeyPfx` for technical reasons) so that `trim_matches('/')` is the
explicit two-sided `dropWhile`. -/

/-- Mirrors `raw.trim_matches('/')`: remove every leading and trailing
slash. -/
def KeyPfx.trim (s : List Char) : List Char :=
  ((s.dropWhile (fun c => c == '/')).reverse.dropWhile (fun c => c == '/')).reverse

/-- Mirrors `KeyPrefix::new`: trim the slashes from both ends, then append
a single trailing slash (`format!("{trimmed}/")`). -/
def KeyPfx.new (s : List Char) : List Char :=
  KeyPfx.trim s ++ ['/']

/-- The normalized-shape property claimed for the type: the value ends in
exactly one slash. -/
def endsInExactlyOneSlash (l : List Char) : Prop :=
  l.getLast? = some '/' ∧ l.dropLast.getLast? ≠ some '/'

theorem head?_dropWhile_false (p : Char → Bool) (l : List Char) (a : Char)
    (h : (l.dropWhile p).head? = some a) : p a = false := by
  have hw := List.head?_dropWhile_not p l
  rw [h] at hw
  exact hw

theorem dropWhile_of_head_not (p : Char → Bool) (l : List Char) (a : Char)
    (h : l.head? = some a) (ha : p a = false) : l.dropWhile p = l := by
  cases l with
  | nil => cases h
  | cons x xs =>
    simp only [List.head?_cons, Option.some.injEq] at h
    subst h
    rw [List.dropWhile_cons, ha]
    simp

/-- The first character of a trimmed value is not a slash. -/
theorem KeyPfx.trim_head (s : List Char) (a : Char)
    (h : (KeyPfx.trim s).head? = some a) : (a == '/') = false := by
  have hsfx : (s.dropWhile (fun c => c == '/')).reverse.dropWhile (fun c => c == '/') <:+
      (s.dropWhile (fun c => c == '/')).reverse :=
    List.dropWhile_suffix _
  have hs2 : (KeyPfx.trim s).reverse <:+ (s.dropWhile (fun c => c == '/')).reverse := by
    unfold KeyPfx.trim
    rw [List.reverse_reverse]
    exact hsfx
  have hpre : KeyPfx.trim s <+: s.dropWhile (fun c => c == '/') :=
    (List.reverse_suffix).mp hs2
  obtain ⟨t, ht⟩ := hpre
  have hA : (s.dropWhile (fun c => c == '/')).head? = some a := by
    rw [← ht, List.head?_append, h]
    rfl
  exact head?_dropWhile_false _ s a hA

/-- The last character of a trimmed value is not a slash. -/
theorem KeyPfx.trim_getLast (s : List Char) (a : Char)
    (h : (KeyPfx.trim s).getLast? = some a) : (a == '/') = false := by
  have hrw : (KeyPfx.trim s).getLast? =
      ((s.dropWhile (fun c => c == '/')).reverse.dropWhile (fun c => c == '/')).head? := by
    unfold KeyPfx.trim
    rw [← List.head?_reverse, List.reverse_reverse]
  rw [hrw] at h
  exact head?_dropWhile_false _ _ a h

/-- Normalization is idempotent at the level of the trimmed value. -/
theorem KeyPfx.trim_new (s : List Char) :
    KeyPfx.trim (KeyPfx.new s) = KeyPfx.trim s := by
  rcases hts : KeyPfx.trim s with _ | ⟨x, xs⟩
  · show KeyPfx.trim (KeyPfx.trim s ++ ['/']) = _
    rw [hts]
    decide
  · have hx : (x == '/') = false := KeyPfx.trim_head s x (by rw [hts]; rfl)
    rcases hgl : (KeyPfx.trim s).getLast? with _ | y
    · rw [hts] at hgl
      simp at hgl
    · have hy : (y == '/') = false := KeyPfx.trim_getLast s y hgl
      have h1 : (KeyPfx.trim s ++ ['/']).dropWhile (fun c => c == '/') =
          KeyPfx.trim s ++ ['/'] := by
        rw [hts, List.cons_append, List.dropWhile_cons, hx]
        simp
      have h2 : (KeyPfx.trim s ++ ['/']).reverse = '/' :: (KeyPfx.trim s).reverse := by
        simp
      have h3 : (KeyPfx.trim s).reverse.head? = some y := by
        rw [List.head?_reverse]
        exact hgl
      have h4 : ('/' :: (KeyPfx.trim s).reverse).dropWhile (fun c => c == '/') =
          (KeyPfx.trim s).reverse := by
        rw [List.dropWhile_cons]
        simp only [if_pos (by decide : (('/' : Char) == '/') = true)]
        exact dropWhile_of_head_not _ _ y h3 hy
      show KeyPfx.trim (KeyPfx.trim s ++ ['/']) = _
      have htd : ∀ X : List Char, KeyPfx.trim X =
          ((X.dropWhile (fun c => c == '/')).reverse.dropWhile
            (fun c => c == '/')).reverse := fun X => rfl
      rw [htd (KeyPfx.trim s ++ ['/']), h1, h2, h4, List.reverse_reverse]
      exact hts

/-! ## SdkClient transport sends (src/client/sdk.rs)

Each send validates locally, then performs the wire exchange; the wire is
an oracle `resp` holding either a transport error (as its message) or the
response's optional field of interest (`upload_id` or `e_tag`). -/

/-- Mirrors `UploadId::try_from_create_resp`. -/
def UploadId.try_from_create_resp (upload_id : Option String) :
    Except ErrorRepr UploadId :=
  match upload_id with
  | some v => .ok v
  | none => .error (.Missing "CreateResponse" "upload_id")

/-- Mirrors `EntityTag::try_from_upload_resp`. -/
def EntityTag.try_from_upload_resp (e_tag : Option String) :
    Except ErrorRepr EntityTag :=
  match e_tag with
  | some v => .ok v
  | none => .error (.Missing "UploadResponse" "e_tag")

/-- Mirrors `EntityTag::try_from_complete_resp`. -/
def EntityTag.try_from_complete_resp (e_tag : Option String) :
    Except ErrorRepr EntityTag :=
  match e_tag with
  | some v => .ok v
  | none => .error (.Missing "CompleteResponse" "e_tag")

/-- Mirrors `SdkClient::send_create_upload_request`: validate, send, map
transport errors to `ErrorRepr::Sdk`, extract the upload id.  No
upload context is attached on this path. -/
def SdkClient.send_create_upload_request (req : CreateRequest)
    (resp : Except String (Option String)) : Except UploadError UploadData :=
  match req.validate with
  | .error e => .error e
  | .ok () =>
    match (match resp with
           | .error msg => .error (ErrorRepr.Sdk msg)
           | .ok r => UploadId.try_from_create_resp r : Except ErrorRepr UploadId) with
    | .error e => .error ⟨e⟩
    | .ok id => .ok (UploadData.new id req.uri)

/-- Mirrors `SdkClient::send_new_part_upload_request`: validate, send, map
transport errors to `ErrorRepr::Sdk`, extract the entity tag, and attach
the upload context `(id, uri, part)` to any error of that exchange. -/
def SdkClient.send_new_part_upload_request (req : UploadPartRequest)
    (resp : Except String (Option String)) : Except UploadError CompletedPart :=
  match req.validate with
  | .error e => .error e
  | .ok () =>
    let part_size := req.body.size
    match upload_ctx
        (match resp with
         | .error msg => .error (ErrorRepr.Sdk msg)
         | .ok r => EntityTag.try_from_upload_resp r : Except ErrorRepr EntityTag)
        req.id req.uri req.part_number with
    | .error e => .error e
    | .ok etag => .ok (CompletedPart.new req.id etag req.part_number part_size)

/-- Mirrors `SdkClient::send_complete_upload_request`: validate, send, map
transport errors, extract the entity tag, attaching the upload context
with the largest completed part number. -/
def SdkClient.send_complete_upload_request (req : CompleteRequest)
    (resp : Except String (Option String)) : Except UploadError CompletedUpload :=
  match req.validate with
  | .error e => .error e
  | .ok () =>
    match upload_ctx
        (match resp with
         | .error msg => .error (ErrorRepr.Sdk msg)
         | .ok r => EntityTag.try_from_complete_resp r : Except ErrorRepr EntityTag)
        req.id req.uri req.completed_parts.max_part_number with
    | .error e => .error e
    | .ok etag => .ok (CompletedUpload.new req.uri etag)

/-! ## Claim theorems -/

/-- Claim C1: at the moment the upload layer issues the complete-upload
request, the completed-parts collection placed in the `CompleteRequest` is
sorted strictly ascending by part number, whatever completion order the
pending pool yielded the parts in (distinct part numbers, as dispatch
assigns them, are a hypothesis). -/
theorem C1_complete_request_parts_strictly_ascending
    (s : UploadImpl) (d : UploadData) (parts : CompletedParts)
    (resp : Except UploadError CompletedUpload)
    (hfut : s.fut = none) (hdata : s.data = some d)
    (hnd : ((s.completed ++ parts).map (fun p => p.part_number.val)).Nodup) :
    s.poll_complete (.ok parts) resp =
      some (⟨none, none, [], PartNumber.default⟩, resp,
        some (CompleteRequest.new d (CompletedParts.extend s.completed parts))) ∧
    (CompletedParts.extend s.completed parts).Pairwise
      (fun a b => a.part_number.val < b.part_number.val) ∧
    (CompletedParts.extend s.completed parts).Perm (s.completed ++ parts) := by
  refine ⟨?_, CompletedParts.extend_strict _ _ hnd, CompletedParts.extend_perm _ _⟩
  simp [UploadImpl.poll_complete, hfut, hdata]

/-- Witness for C1 at a concrete state: parts 3 and 1 arrive out of order
on top of an already-flushed part 2. -/
theorem C1_witness :
    (⟨none, some (UploadData.new "id-7" ⟨"bucket", "key"⟩),
        [CompletedPart.new "id-7" "e2" ⟨2⟩ 5], ⟨4⟩⟩ : UploadImpl).poll_complete
        (.ok [CompletedPart.new "id-7" "e3" ⟨3⟩ 5,
              CompletedPart.new "id-7" "e1" ⟨1⟩ 5])
        (.ok (CompletedUpload.new ⟨"bucket", "key"⟩ "etag")) =
      some (⟨none, none, [], PartNumber.default⟩,
        .ok (CompletedUpload.new ⟨"bucket", "key"⟩ "etag"),
        some (CompleteRequest.new (UploadData.new "id-7" ⟨"bucket", "key"⟩)
          (CompletedParts.extend [CompletedPart.new "id-7" "e2" ⟨2⟩ 5]
            [CompletedPart.new "id-7" "e3" ⟨3⟩ 5,
             CompletedPart.new "id-7" "e1" ⟨1⟩ 5]))) ∧
    (CompletedParts.extend [CompletedPart.new "id-7" "e2" ⟨2⟩ 5]
        [CompletedPart.new "id-7" "e3" ⟨3⟩ 5,
         CompletedPart.new "id-7" "e1" ⟨1⟩ 5]).Pairwise
      (fun a b => a.part_number.val < b.part_number.val) ∧
    (CompletedParts.extend [CompletedPart.new "id-7" "e2" ⟨2⟩ 5]
        [CompletedPart.new "id-7" "e3" ⟨3⟩ 5,
         CompletedPart.new "id-7" "e1" ⟨1⟩ 5]).Perm
      ([CompletedPart.new "id-7" "e2" ⟨2⟩ 5] ++
        [CompletedPart.new "id-7" "e3" ⟨3⟩ 5,
         CompletedPart.new "id-7" "e1" ⟨1⟩ 5]) :=
  C1_complete_request_parts_strictly_ascending
    ⟨none, some (UploadData.new "id-7" ⟨"bucket", "key"⟩),
      [CompletedPart.new "id-7" "e2" ⟨2⟩ 5], ⟨4⟩⟩
    (UploadData.new "id-7" ⟨"bucket", "key"⟩)
    [CompletedPart.new "id-7" "e3" ⟨3⟩ 5, CompletedPart.new "id-7" "e1" ⟨1⟩ 5]
    (.ok (CompletedUpload.new ⟨"bucket", "key"⟩ "etag"))
    rfl rfl (by decide)

/-- Claim C2: within one installed `UploadData`, the part numbers attached
to the dispatched part-upload requests are exactly 1, 2, …, k in dispatch
order, and after the upload completes and a new `UploadData` is installed
the numbering restarts at 1. -/
theorem C2_part_numbers_consecutive_and_restart
    (d d' : UploadData) (bodies bodies' : List PartBody)
    (parts : CompletedParts) (resp : Except UploadError CompletedUpload) :
    ∃ s₁ reqs₁ s₂ out req s₃ reqs₂,
      UploadImpl.sendMany (UploadImpl.new.set_upload_data d) bodies =
        some (s₁, reqs₁) ∧
      reqs₁.map (fun q => q.part_number.val) =
        (List.range bodies.length).map (fun (i : Nat) => 1 + (i : Int)) ∧
      s₁.poll_complete (.ok parts) resp = some (s₂, out, req) ∧
      UploadImpl.sendMany (s₂.set_upload_data d') bodies' = some (s₃, reqs₂) ∧
      reqs₂.map (fun q => q.part_number.val) =
        (List.range bodies'.length).map (fun (i : Nat) => 1 + (i : Int)) := by
  obtain ⟨s₁, reqs₁, h1, hn1, hc1, hd1, hf1, -⟩ :=
    UploadImpl.sendMany_spec bodies (UploadImpl.new.set_upload_data d) d rfl
  have hf1' : s₁.fut = none := hf1
  have hd1' : s₁.data = some d := hd1
  obtain ⟨s₃, reqs₂, h3, hn3, -, -, -, -⟩ :=
    UploadImpl.sendMany_spec bodies'
      ((⟨none, none, [], PartNumber.default⟩ : UploadImpl).set_upload_data d') d' rfl
  refine ⟨s₁, reqs₁, ⟨none, none, [], PartNumber.default⟩, resp,
    some (CompleteRequest.new d (CompletedParts.extend s₁.completed parts)),
    s₃, reqs₂, h1, ?_, ?_, h3, ?_⟩
  · simpa using hn1
  · simp [UploadImpl.poll_complete, hf1', hd1']
  · simpa using hn3

/-- Witness for C2 at two concrete two-part uploads. -/
theorem C2_witness :
    ∃ s₁ reqs₁ s₂ out req s₃ reqs₂,
      UploadImpl.sendMany
          (UploadImpl.new.set_upload_data (UploadData.new "u1" ⟨"b", "k1"⟩))
          [⟨[0]⟩, ⟨[1, 2]⟩] = some (s₁, reqs₁) ∧
      reqs₁.map (fun q => q.part_number.val) =
        (List.range 2).map (fun (i : Nat) => 1 + (i : Int)) ∧
      s₁.poll_complete (.ok []) (.ok (CompletedUpload.new ⟨"b", "k1"⟩ "t")) =
        some (s₂, out, req) ∧
      UploadImpl.sendMany (s₂.set_upload_data (UploadData.new "u2" ⟨"b", "k2"⟩))
          [⟨[3]⟩] = some (s₃, reqs₂) ∧
      reqs₂.map (fun q => q.part_number.val) =
        (List.range 1).map (fun (i : Nat) => 1 + (i : Int)) := by
  have h := C2_part_numbers_consecutive_and_restart
    (UploadData.new "u1" ⟨"b", "k1"⟩) (UploadData.new "u2" ⟨"b", "k2"⟩)
    [⟨[0]⟩, ⟨[1, 2]⟩] [⟨[3]⟩] []
    (.ok (CompletedUpload.new ⟨"b", "k1"⟩ "t"))
  simpa using h

/-- Claim C5 (amended): part numbers dispatched within one upload are the
consecutive sequence 1, 2, …, k for every k — the upload layer itself
imposes no cap at 10,000. -/
theorem C5_part_numbers_consecutive_unbounded
    (d : UploadData) (bodies : List PartBody) :
    ∃ s' reqs,
      UploadImpl.sendMany (UploadImpl.new.set_upload_data d) bodies =
        some (s', reqs) ∧
      reqs.map (fun q => q.part_number.val) =
        (List.range bodies.length).map (fun (i : Nat) => 1 + (i : Int)) := by
  obtain ⟨s', reqs, h, hn, -⟩ :=
    UploadImpl.sendMany_spec bodies (UploadImpl.new.set_upload_data d) d rfl
  exact ⟨s', reqs, h, by simpa using hn⟩

/-- Counterexample to claim C5 as stated: dispatching 10,001 bodies within
a single upload succeeds and attaches the part number 10,001 to a request,
exceeding the claimed bound of 10,000 — nothing in `PartNumber::increment`
or `UploadImpl::start_send` enforces the cap. -/
theorem C5_counterexample :
    ∃ s' reqs,
      UploadImpl.sendMany
          (UploadImpl.new.set_upload_data (UploadData.new "big" ⟨"bucket", "key"⟩))
          (List.replicate 10001 PartBody.with_capacity) = some (s', reqs) ∧
      (10001 : Int) ∈ reqs.map (fun q => q.part_number.val) ∧
      ¬ ((10001 : Int) ≤ 10000) := by
  obtain ⟨s', reqs, h, hn, -⟩ :=
    UploadImpl.sendMany_spec (List.replicate 10001 PartBody.with_capacity)
      (UploadImpl.new.set_upload_data (UploadData.new "big" ⟨"bucket", "key"⟩))
      (UploadData.new "big" ⟨"bucket", "key"⟩) rfl
  refine ⟨s', reqs, h, ?_, by norm_num⟩
  rw [hn]
  simp only [List.length_replicate]
  refine List.mem_map.mpr ⟨10000, List.mem_range.mpr (by norm_num), ?_⟩
  norm_num [UploadImpl.new, UploadImpl.set_upload_data, PartNumber.default]

/-- Claim C3: with a configured capacity limit N, `poll_ready` reports
ready exactly when the number of in-flight futures (after first draining
the already-completed ones into `completed`) is strictly below N, and is
always ready with no limit; and under the discipline that `start_send`
only follows a ready `poll_ready`, a reachable pool never holds more than
N in-flight futures. -/
theorem C3_pool_ready_iff_capacity_and_bounded :
    (∀ (b : PartBuffer) (done stay : List SendUploadPart) (b' : PartBuffer)
        (r : Poll (Except UploadError Unit)),
      (∀ f ∈ done, ∃ v, f = Except.ok v) →
      b.poll_ready done stay = (b', r) →
      b'.completed = b.completed ++ done.filterMap Except.toOption ∧
      b'.pending = stay ∧
      (r = .Ready (.ok ()) ↔
        (b.capacity = none ∨ ∃ n, b.capacity = some n ∧ stay.length < n))) ∧
    (∀ b : PartBuffer, PartBuffer.Reach b →
      ∀ n, b.capacity = some n → b.pending.length ≤ n) := by
  constructor
  · intro b done stay b' r hok h
    obtain ⟨h1, h2, -, h4⟩ := PartBuffer.poll_ready_ok_spec b done stay b' r hok h
    exact ⟨h1, h2, h4⟩
  · exact PartBuffer.reach_bounded

/-- Witness for C3 at the freshly built pool of capacity 2. -/
theorem C3_witness :
    (PartBuffer.new (some 2)).pending = ([] : List SendUploadPart) ∧
    (PartBuffer.new (some 2)).pending.length ≤ 2 := by
  constructor
  · exact (C3_pool_ready_iff_capacity_and_bounded.1 (PartBuffer.new (some 2))
      [] [] (PartBuffer.new (some 2)) (.Ready (.ok ())) (by simp) rfl).2.1
  · exact C3_pool_ready_iff_capacity_and_bounded.2 (PartBuffer.new (some 2))
      (PartBuffer.Reach.new (some 2)) 2 rfl

/-- Claim C9: a configured capacity of zero is silently converted to no
capacity limit — the builder stores `Some(0)`, `PartBuffer::new` turns it
into `None`, `poll_ready` is then never pending, and pools with
arbitrarily many in-flight futures are reachable. -/
theorem C9_zero_capacity_means_unbounded :
    (∀ b0 : UploadBuilder,
      (b0.max_active_tasks 0).build_buffer = PartBuffer.new none) ∧
    (PartBuffer.new (some 0)).capacity = none ∧
    (∀ (b : PartBuffer) (done stay : List SendUploadPart) (b' : PartBuffer)
        (r : Poll (Except UploadError Unit)),
      b.capacity = none → b.poll_ready done stay = (b', r) → r ≠ .Pending) ∧
    (∀ (f : SendUploadPart) (k : Nat),
      PartBuffer.Reach ⟨List.replicate k f, [], none⟩) := by
  refine ⟨fun b0 => rfl, rfl, ?_, ?_⟩
  · intro b done stay b' r hc h
    unfold PartBuffer.poll_ready at h
    rcases hd : PartBuffer.pollDrain b.completed done with ⟨acc, err, leftover⟩
    rw [hd] at h
    cases err with
    | some e =>
      obtain ⟨-, rfl⟩ := Prod.mk.injEq .. ▸ h
      simp
    | none =>
      rw [hc] at h
      obtain ⟨-, rfl⟩ := Prod.mk.injEq .. ▸ h
      simp
  · intro f k
    induction k with
    | zero =>
      have he : PartBuffer.new none = (⟨[], [], none⟩ : PartBuffer) := rfl
      exact he ▸ PartBuffer.Reach.new none
    | succ k ih =>
      have hpoll : (⟨List.replicate k f, [], none⟩ : PartBuffer).poll_ready
          [] (List.replicate k f) =
          (⟨List.replicate k f, [], none⟩, .Ready (.ok ())) := rfl
      have hperm : (⟨List.replicate k f, [], none⟩ : PartBuffer).pending.Perm
          ([] ++ List.replicate k f) := List.Perm.refl _
      have hsend := PartBuffer.Reach.send _ [] (List.replicate k f) _ f ih hperm hpoll
      rw [List.replicate_succ']
      exact hsend

/-- Witness for C9 at the default builder reconfigured to zero tasks. -/
theorem C9_witness :
    (UploadBuilder.new.max_active_tasks 0).build_buffer = PartBuffer.new none ∧
    ((PartBuffer.new (some 0)).poll_ready [] []).2 ≠ Poll.Pending := by
  constructor
  · exact C9_zero_capacity_means_unbounded.1 UploadBuilder.new
  · exact C9_zero_capacity_means_unbounded.2.2.1 (PartBuffer.new (some 0)) [] []
      ((PartBuffer.new (some 0)).poll_ready [] []).1
      ((PartBuffer.new (some 0)).poll_ready [] []).2 rfl rfl

/-- Counterexample to the unreachability half of claim C10: with an
exhausted URI iterator, `poll_ready` returns Ready(Ok) on a writer with no
`UploadData` installed, and `start_send` then hits the
`expect("polled Upload after completion")` panic (modelled as `none`)
rather than an error value. -/
theorem C10_counterexample :
    (Upload.new []).poll_ready (.error ⟨.Sdk "unused"⟩) true =
      (Upload.new [], .Ready (.ok ())) ∧
    (Upload.new []).is_terminated = true ∧
    (Upload.new []).start_send PartBody.with_capacity = none := by
  exact ⟨rfl, rfl, rfl⟩

/-- Claim C10 (amended): `start_send` panics (returns no error value)
exactly when no `UploadData` is installed; and after a successful
Ready(Ok) `poll_ready`, the writer either has `UploadData` installed or is
terminated (URI iterator exhausted) — so the panic is unreachable for a
non-terminated writer. -/
theorem C10_start_send_panic_iff_no_data :
    (∀ (s : UploadImpl) (b : PartBody),
      s.start_send b = none ↔ s.data = none) ∧
    (∀ (u : Upload) (resp : Except UploadError UploadData) (bufReady : Bool)
        (u' : Upload),
      u.poll_ready resp bufReady = (u', .Ready (.ok ())) →
      u'.is_terminated = false → ∀ b, u'.start_send b ≠ none) := by
  constructor
  · intro s b
    cases hd : s.data <;> simp [UploadImpl.start_send, hd]
  · intro u resp bufReady u' h hterm b
    have hok : u.poll_new_upload resp = (u', .ok ()) := by
      unfold Upload.poll_ready at h
      rcases hpn : u.poll_new_upload resp with ⟨u'', r⟩
      rw [hpn] at h
      cases r with
      | error e =>
        obtain ⟨-, h2⟩ := Prod.mk.injEq .. ▸ h
        cases h2
      | ok v =>
        cases v
        by_cases hb : bufReady
        · simp only [hb, if_pos] at h
          obtain ⟨rfl, -⟩ := Prod.mk.injEq .. ▸ h
          rfl
        · simp only [hb, if_neg, not_false_iff] at h
          obtain ⟨-, h2⟩ := Prod.mk.injEq .. ▸ h
          cases h2
    obtain ⟨hfut, hnext⟩ := Upload.poll_new_upload_ok u resp u' hok
    cases hd : u'.inner.data with
    | none =>
      exfalso
      rw [Upload.is_terminated, UploadImpl.is_terminated, hd, hfut, hnext] at hterm
      simp at hterm
    | some d =>
      simp [Upload.start_send, UploadImpl.start_send, hd]

/-- Witness for C10: the panic characterization at the initial inner
state, and a ready non-terminated writer that sends without panicking. -/
theorem C10_witness :
    (UploadImpl.new.start_send PartBody.with_capacity = none ↔
      UploadImpl.new.data = none) ∧
    ((Upload.new [⟨"bucket", "key"⟩]).poll_ready
        (.ok (UploadData.new "the-id" ⟨"bucket", "key"⟩)) true).1.start_send
      PartBody.with_capacity ≠ none := by
  constructor
  · exact C10_start_send_panic_iff_no_data.1 UploadImpl.new PartBody.with_capacity
  · exact C10_start_send_panic_iff_no_data.2 (Upload.new [⟨"bucket", "key"⟩])
      (.ok (UploadData.new "the-id" ⟨"bucket", "key"⟩)) true
      ((Upload.new [⟨"bucket", "key"⟩]).poll_ready
        (.ok (UploadData.new "the-id" ⟨"bucket", "key"⟩)) true).1
      rfl rfl PartBody.with_capacity

/-- Claim C7 evaluated at its failing trace: the claim (and the spec) says
rollover to a new `UploadData` zeroes the part counter, the completed
parts, and the telemetry.  The code resets the part counter (back to 1)
and the completed parts (empty), but `EncodedUpload::poll_complete` never
resets the telemetry `UploadState`: after completing a 1-item, 1-part,
5-byte upload and installing a new upload, the status reported for the
first 3-byte item of the second upload still shows items = 2, parts = 1,
bytes = 5 and the previous upload's id and part number, where per the
claim it would show items = 1, parts = 0, bytes = 0. -/
theorem C7_telemetry_not_reset_on_rollover :
    c7trace = some
      ({ id := some "upload-1", part := some ⟨1⟩, items := 2, parts := 1,
         bytes := 5, should_complete := false, part_bytes := 3,
         should_upload := false }, ⟨1⟩, ([] : CompletedParts)) := by
  rfl

/-- Counterexample to claim C8 as stated: on the empty input string the
constructed value is "/", which begins with a slash, so "no leading
slash" fails for that input (idempotence and the single-trailing-slash
shape do hold there). -/
theorem C8_counterexample :
    KeyPfx.new [] = ['/'] ∧ (KeyPfx.new []).head? = some '/' := by
  constructor <;> rfl

/-- Claim C8 (amended): normalization is idempotent for every input, every
constructed value ends in exactly one slash, and it has no leading slash
whenever the slash-trimmed input is nonempty (for an empty or all-slash
input the result is exactly "/"). -/
theorem C8_normalization_idempotent_and_shape (s : List Char) :
    KeyPfx.new (KeyPfx.new s) = KeyPfx.new s ∧
    endsInExactlyOneSlash (KeyPfx.new s) ∧
    (KeyPfx.trim s ≠ [] → (KeyPfx.new s).head? ≠ some '/') := by
  refine ⟨?_, ⟨?_, ?_⟩, ?_⟩
  · show KeyPfx.trim (KeyPfx.new s) ++ ['/'] = _
    rw [KeyPfx.trim_new]
    rfl
  · exact List.getLast?_concat _
  · show (KeyPfx.trim s ++ ['/']).dropLast.getLast? ≠ some '/'
    rw [List.dropLast_concat]
    intro h
    have := KeyPfx.trim_getLast s '/' h
    simp at this
  · intro hne h
    rcases hts : KeyPfx.trim s with _ | ⟨x, xs⟩
    · exact hne hts
    · have hx : (x == '/') = false := KeyPfx.trim_head s x (by rw [hts]; rfl)
      have : (KeyPfx.new s).head? = some x := by
        show (KeyPfx.trim s ++ ['/']).head? = some x
        rw [hts]
        rfl
      rw [this] at h
      simp only [Option.some.injEq] at h
      rw [h] at hx
      simp at hx

/-- Witness for C8 at the concrete input "a//b//". -/
theorem C8_witness :
    KeyPfx.new (KeyPfx.new ['a', '/', '/', 'b', '/', '/']) =
      KeyPfx.new ['a', '/', '/', 'b', '/', '/'] ∧
    endsInExactlyOneSlash (KeyPfx.new ['a', '/', '/', 'b', '/', '/']) ∧
    (KeyPfx.new ['a', '/', '/', 'b', '/', '/']).head? ≠ some '/' := by
  have h := C8_normalization_idempotent_and_shape ['a', '/', '/', 'b', '/', '/']
  exact ⟨h.1, h.2.1, h.2.2 (by decide)⟩

/-- Counterexample to claim C4 as stated: the local validation error of
`send_new_part_upload_request` (empty upload id) is returned without any
`FailedUpload` context — `Error::failed_upload` is `None` on it. -/
theorem C4_counterexample :
    SdkClient.send_new_part_upload_request
        ⟨"", ⟨"bucket", "key"⟩, ⟨[1, 2, 3]⟩, ⟨3⟩⟩ (.error "network down") =
      .error ⟨.Missing "UploadPartRequest" "empty upload id and/or uri"⟩ ∧
    UploadError.failed_upload
        ⟨.Missing "UploadPartRequest" "empty upload id and/or uri"⟩ = none := by
  constructor <;> rfl

/-- Claim C4 (amended): every error returned by the part-upload operation
after local validation passes carries the `FailedUpload` context with the
upload's id, URI and part number, retrievable via `Error::failed_upload`. -/
theorem C4_part_upload_errors_carry_context
    (req : UploadPartRequest) (resp : Except String (Option String))
    (e : UploadError) (hv : req.validate = .ok ())
    (h : SdkClient.send_new_part_upload_request req resp = .error e) :
    e.failed_upload = some (FailedUpload.new req.id req.uri req.part_number) := by
  unfold SdkClient.send_new_part_upload_request at h
  rw [hv] at h
  cases resp with
  | error msg =>
    simp only [upload_ctx] at h
    obtain rfl : (⟨.UploadFailed (FailedUpload.new req.id req.uri req.part_number)
        (.Sdk msg)⟩ : UploadError) = e := by
      simpa using h
    rfl
  | ok r =>
    cases r with
    | none =>
      simp only [EntityTag.try_from_upload_resp, upload_ctx] at h
      obtain rfl : (⟨.UploadFailed (FailedUpload.new req.id req.uri req.part_number)
          (.Missing "UploadResponse" "e_tag")⟩ : UploadError) = e := by
        simpa using h
      rfl
    | some t =>
      simp [EntityTag.try_from_upload_resp, upload_ctx] at h

/-- Witness for C4 at a concrete valid request whose wire exchange fails. -/
theorem C4_witness :
    UploadError.failed_upload
        ⟨.UploadFailed (FailedUpload.new "id-1" ⟨"bucket", "key"⟩ ⟨2⟩)
          (.Sdk "boom")⟩ =
      some (FailedUpload.new "id-1" ⟨"bucket", "key"⟩ ⟨2⟩) :=
  C4_part_upload_errors_carry_context
    ⟨"id-1", ⟨"bucket", "key"⟩, ⟨[1]⟩, ⟨2⟩⟩ (.error "boom")
    ⟨.UploadFailed (FailedUpload.new "id-1" ⟨"bucket", "key"⟩ ⟨2⟩) (.Sdk "boom")⟩
    rfl rfl

/-- Claim C6: request validation is local and exact — `CreateRequest`
fails validation exactly when the URI has an empty bucket or empty key;
`UploadPartRequest` and `CompleteRequest` exactly when the upload id is
empty or the URI has an empty bucket or empty key — and each transport
send returns the validation error regardless of the wire response, i.e.
before any wire exchange matters. -/
theorem C6_validation_exact_and_fast_fail :
    (∀ r : CreateRequest,
      (∃ e, r.validate = .error e) ↔
        (r.uri.bucket.isEmpty || r.uri.key.isEmpty) = true) ∧
    (∀ r : UploadPartRequest,
      (∃ e, r.validate = .error e) ↔
        (r.id.isEmpty || (r.uri.bucket.isEmpty || r.uri.key.isEmpty)) = true) ∧
    (∀ r : CompleteRequest,
      (∃ e, r.validate = .error e) ↔
        (r.id.isEmpty || (r.uri.bucket.isEmpty || r.uri.key.isEmpty)) = true) ∧
    (∀ (r : CreateRequest) (e : UploadError) (resp : Except String (Option String)),
      r.validate = .error e →
      SdkClient.send_create_upload_request r resp = .error e) ∧
    (∀ (r : UploadPartRequest) (e : UploadError)
        (resp : Except String (Option String)),
      r.validate = .error e →
      SdkClient.send_new_part_upload_request r resp = .error e) ∧
    (∀ (r : CompleteRequest) (e : UploadError)
        (resp : Except String (Option String)),
      r.validate = .error e →
      SdkClient.send_complete_upload_request r resp = .error e) := by
  refine ⟨?_, ?_, ?_, ?_, ?_, ?_⟩
  · intro r
    simp only [CreateRequest.validate, ObjectUri.is_empty]
    constructor
    · rintro ⟨e, he⟩
      by_contra hne
      rw [if_neg hne] at he
      cases he
    · intro hc
      exact ⟨_, by rw [if_pos hc]⟩
  · intro r
    simp only [UploadPartRequest.validate, ObjectUri.is_empty]
    constructor
    · rintro ⟨e, he⟩
      by_contra hne
      rw [if_neg hne] at he
      cases he
    · intro hc
      exact ⟨_, by rw [if_pos hc]⟩
  · intro r
    simp only [CompleteRequest.validate, ObjectUri.is_empty]
    constructor
    · rintro ⟨e, he⟩
      by_contra hne
      rw [if_neg hne] at he
      cases he
    · intro hc
      exact ⟨_, by rw [if_pos hc]⟩
  · intro r e resp h
    simp [SdkClient.send_create_upload_request, h]
  · intro r e resp h
    simp [SdkClient.send_new_part_upload_request, h]
  · intro r e resp h
    simp [SdkClient.send_complete_upload_request, h]

/-- Witness for C6: an empty-bucket create request fails validation and
its send returns that error before any wire exchange; a fully-populated
part request passes. -/
theorem C6_witness :
    (∃ e, (CreateRequest.new ⟨"", "key"⟩).validate = .error e) ∧
    SdkClient.send_create_upload_request (CreateRequest.new ⟨"", "key"⟩)
        (.ok (some "would-be-id")) =
      .error ⟨.Missing "CreateRequest" "empty object uri"⟩ := by
  constructor
  · exact (C6_validation_exact_and_fast_fail.1 (CreateRequest.new ⟨"", "key"⟩)).mpr
      (by decide)
  · exact C6_validation_exact_and_fast_fail.2.2.2.1 (CreateRequest.new ⟨"", "key"⟩)
      ⟨.Missing "CreateRequest" "empty object uri"⟩ (.ok (some "would-be-id")) rfl

/-- Witness for the amended C5 at a concrete three-part upload. -/
theorem C5_witness :
    ∃ s' reqs,
      UploadImpl.sendMany
          (UploadImpl.new.set_upload_data (UploadData.new "w" ⟨"b", "k"⟩))
          [⟨[9]⟩, ⟨[8]⟩, ⟨[7]⟩] = some (s', reqs) ∧
      reqs.map (fun q => q.part_number.val) =
        (List.range 3).map (fun (i : Nat) => 1 + (i : Int)) :=
  C5_part_numbers_consecutive_unbounded (UploadData.new "w" ⟨"b", "k"⟩)
    [⟨[9]⟩, ⟨[8]⟩, ⟨[7]⟩]
